import Mathlib

/-!
Shallow embedding of the ISL satellite-centric MST link protocol from
`internal/links/isl_satellite_mst.go` (type `IslSatelliteCentricMstProtocol`).

Modelling choices:
* Satellites (`*satmod.Satellite` pointers) and ISL links (`*linkmod.IslLink`
  pointers) are identified by natural-number ids (`NodeId`, `LinkId`): Go
  compares them by pointer identity, which ids model faithfully.
* The parts of the repository the protocol depends on but that are not in the
  provided sources (`IslLink`, `LinkPriorityQueue`, `types.Vector`,
  `configs.MaxISLDistance`, `Satellite`) are modelled from the spec; each such
  definition carries a `Modelled from the spec:` doc comment.
* A `World` packages the state the protocol only reads: link endpoints, link
  distances (a link recomputes its distance from live node positions on each
  access; positions are fixed while `UpdateLinks` holds the lock, so the
  distance is a fixed rational per link during one recomputation), each
  neighbour node's own candidate-link list (`newSat.ISLProtocol.Links()`), the
  position of each node, and the maximum connection distance.
* The mutable established flag that `SetEstablished` writes on shared link
  objects is modelled as a function `LinkId → Bool` threaded through
  `UpdateLinks`.
* The single-slot channel `readyCh` is modelled as a `Bool` (full/empty):
  a non-blocking send sets it `true`, an opportunistic drain sets it `false`.
* Go's `error` results are modelled as `Option String` (`none` = nil error);
  `UpdateLinks`, which returns `([]types.ILink, error)`, is modelled with
  `Except String (List LinkId)`.
-/

namespace StardustGo

/-- Identity of a satellite node (Go pointer identity). -/
abbrev NodeId := Nat

/-- Identity of an ISL link object (Go pointer identity). -/
abbrev LinkId := Nat

/-- Modelled from the spec: `types.Vector` is a position vector compared by
exact equality (spec §4.1 step 2: "using exact equality — not a
tolerance/epsilon comparison"). Components are rationals. -/
structure Vector where
  x : ℚ
  y : ℚ
  z : ℚ
deriving DecidableEq, Repr

/-- Modelled from the spec: `types.ILink` is the abstract link interface; the
protocol only understands its own `IslLink` variant and silently ignores
foreign variants (spec §4.1, §7). -/
inductive ILink where
  | isl : LinkId → ILink
  | other : Nat → ILink
deriving DecidableEq, Repr

/-- Modelled from the spec: `types.INode` is the abstract node interface; the
protocol only binds to its own `Satellite` variant (spec §7). -/
inductive INode where
  | sat : NodeId → INode
  | otherNode : Nat → INode
deriving DecidableEq, Repr

/-- The read-only environment of one `UpdateLinks` pass: endpoints and distance
of every link object, each node's own protocol's candidate links (what
`newSat.ISLProtocol.Links()` returns, already restricted to the `IslLink`
variant, which is the only one the type assertion in the loop keeps), each
node's current position (`PositionVector()`), and the process-wide
`configs.MaxISLDistance`. -/
structure World where
  maxDist : ℚ
  linkNode1 : LinkId → NodeId
  linkNode2 : LinkId → NodeId
  linkDist : LinkId → ℚ
  nodeLinks : NodeId → List LinkId
  nodePos : NodeId → Vector

/-- State of one `IslSatelliteCentricMstProtocol` instance: candidate links,
established links, the mounted satellite, the cached reachable-satellite list,
the cached position, the visited set, the priority queue (a list of
(link, priority) pairs in ascending priority order), and the readiness
channel. The mutex is not modelled: every operation runs while holding it. -/
structure IslSatelliteCentricMstProtocol where
  links : List LinkId
  established : List LinkId
  satellite : Option NodeId
  satellites : List NodeId
  position : Vector
  visited : List NodeId
  pq : List (LinkId × ℚ)
  readyCh : Bool
deriving DecidableEq, Repr

/-- Fresh protocol as built by `NewIslSatelliteCentricMstProtocol`: empty
lists, no satellite, zero position (Go zero value of `types.Vector`), empty
visited set and queue, empty channel. -/
def NewIslSatelliteCentricMstProtocol : IslSatelliteCentricMstProtocol :=
  { links := []
    established := []
    satellite := none
    satellites := []
    position := ⟨0, 0, 0⟩
    visited := []
    pq := []
    readyCh := false }

namespace IslSatelliteCentricMstProtocol

/-- `Mount` binds the protocol to a satellite: a no-op when already mounted or
when the node is not a `Satellite`. -/
def Mount (p : IslSatelliteCentricMstProtocol) (node : INode) :
    IslSatelliteCentricMstProtocol :=
  match p.satellite with
  | some _ => p
  | none =>
    match node with
    | INode.sat s => { p with satellite := some s }
    | INode.otherNode _ => p

/-- `AddLink` appends a candidate link when it is an `IslLink`; foreign link
variants are silently discarded. -/
def AddLink (p : IslSatelliteCentricMstProtocol) (link : ILink) :
    IslSatelliteCentricMstProtocol :=
  match link with
  | ILink.isl l => { p with links := p.links ++ [l] }
  | ILink.other _ => p

/-- `ConnectSatellite` always fails with a "not implemented" error and touches
no state. -/
def ConnectSatellite (p : IslSatelliteCentricMstProtocol) (_node : INode) :
    IslSatelliteCentricMstProtocol × Option String :=
  (p, some "ConnectSatellite not implemented")

/-- `ConnectLink` appends the link to the established set when it is an
`IslLink` (foreign variants are ignored); the returned error is always nil. -/
def ConnectLink (p : IslSatelliteCentricMstProtocol) (link : ILink) :
    IslSatelliteCentricMstProtocol × Option String :=
  match link with
  | ILink.isl l => ({ p with established := p.established ++ [l] }, none)
  | ILink.other _ => (p, none)

/-- `DisconnectSatellite` always fails with a "not implemented" error and
touches no state. -/
def DisconnectSatellite (p : IslSatelliteCentricMstProtocol) (_node : INode) :
    IslSatelliteCentricMstProtocol × Option String :=
  (p, some "DisconnectSatellite not implemented")

/-- `DisconnectLink` removes the first occurrence of the link (compared by
identity) from the established set when it is an `IslLink`; foreign variants
are ignored. The returned error is always nil. -/
def DisconnectLink (p : IslSatelliteCentricMstProtocol) (link : ILink) :
    IslSatelliteCentricMstProtocol × Option String :=
  match link with
  | ILink.isl l => ({ p with established := p.established.erase l }, none)
  | ILink.other _ => (p, none)

end IslSatelliteCentricMstProtocol

/-- Modelled from the spec: `LinkPriorityQueue.Enqueue` inserts in ascending
priority order, stably — among equal priorities, first enqueued is first
dequeued (spec §4.2, §4.1 tie-breaking). The queue is the sorted list; the new
entry goes in front of the first strictly larger priority. -/
def pqEnqueue (pq : List (LinkId × ℚ)) (l : LinkId) (d : ℚ) :
    List (LinkId × ℚ) :=
  match pq with
  | [] => [(l, d)]
  | e :: rest => if d < e.2 then (l, d) :: e :: rest else e :: pqEnqueue rest l d

/-- Seeding phase of `UpdateLinks`: enqueue every candidate link of the
protocol whose distance is at most `MaxISLDistance`, in candidate-list order,
into the just-cleared queue. -/
def seedQueue (w : World) (links : List LinkId) : List (LinkId × ℚ) :=
  links.foldl
    (fun q l => if w.linkDist l ≤ w.maxDist then pqEnqueue q l (w.linkDist l) else q)
    []

/-- Frontier-expansion phase of one loop iteration: enqueue every link of the
newly reached satellite whose distance is within range and whose endpoints are
not both visited (visited does not yet contain the new satellite: Go marks it
visited only after this loop). -/
def enqueueFrontier (w : World) (visited : List NodeId) (ls : List LinkId)
    (pq : List (LinkId × ℚ)) : List (LinkId × ℚ) :=
  ls.foldl
    (fun q l =>
      if w.linkDist l ≤ w.maxDist ∧
          ¬(w.linkNode1 l ∈ visited ∧ w.linkNode2 l ∈ visited) then
        pqEnqueue q l (w.linkDist l)
      else q)
    pq

/-- The `continue` path of the Go loop: dequeue entries whose endpoints are
both visited until a usable link is found, returning it and the remaining
queue, or `none` when the queue runs out (in which case every entry has been
dequeued, matching the Go loop exiting with an empty queue). -/
def findLink (w : World) (visited : List NodeId) :
    List (LinkId × ℚ) → Option ((LinkId × ℚ) × List (LinkId × ℚ))
  | [] => none
  | e :: rest =>
    if w.linkNode1 e.1 ∈ visited ∧ w.linkNode2 e.1 ∈ visited then
      findLink w visited rest
    else some (e, rest)

/-- The Prim-style loop of `UpdateLinks`, restructured for structural
recursion: `budget` is `len(p.satellites) - 1 - len(mst)`, so `budget > 0` is
exactly the Go guard `len(mst) < len(p.satellites)-1`, and each appended edge
decrements it; `findLink` performs the guard `p.pq.Len() > 0`, the dequeue and
the both-endpoints-visited `continue` path. Returns the computed tree, the
final visited set and the final queue. -/
def mstBuild (w : World) (budget : Nat) (visited : List NodeId)
    (pq : List (LinkId × ℚ)) (mst : List LinkId) :
    List LinkId × List NodeId × List (LinkId × ℚ) :=
  match budget with
  | 0 => (mst, visited, pq)
  | budget + 1 =>
    match findLink w visited pq with
    | none => (mst, visited, [])
    | some (e, rest) =>
      let s1 := w.linkNode1 e.1
      let s2 := w.linkNode2 e.1
      let newSat := if s1 ∉ visited then s1 else s2
      mstBuild w budget (visited ++ [newSat])
        (enqueueFrontier w visited (w.nodeLinks newSat) rest) (mst ++ [e.1])

/-- The "unique set of reachable satellites" built from the candidate links'
endpoints. Go stores them in a map and ranges over it in unspecified order;
only the count feeds the loop bound, so first-occurrence order is used here. -/
def collectSats (w : World) (links : List LinkId) : List NodeId :=
  links.foldl
    (fun acc l =>
      let acc1 := if w.linkNode1 l ∈ acc then acc else acc ++ [w.linkNode1 l]
      if w.linkNode2 l ∈ acc1 then acc1 else acc1 ++ [w.linkNode2 l])
    []

/-- The whole cache-miss recomputation: seed the queue from the candidate
links, mark the local satellite visited, run the loop with edge budget
`len(satellites) - 1`. -/
def recompute (w : World) (sat : NodeId) (links : List LinkId) :
    List LinkId × List NodeId × List (LinkId × ℚ) :=
  mstBuild w ((collectSats w links).length - 1) [sat] (seedQueue w links) []

/-- Reconciliation of the established flags: every link in the computed tree
is set established; every previously established link absent from the tree is
set not established; all other links keep their flag. -/
def reconcileFlags (f : LinkId → Bool) (mst oldEst : List LinkId) :
    LinkId → Bool :=
  fun l => if l ∈ mst then true else if l ∈ oldEst then false else f l

/-- Result of `UpdateLinks`: the returned `([]types.ILink, error)` pair, the
protocol state after the call, and the established flags of the shared link
objects after the call. -/
structure UpdateResult where
  result : Except String (List LinkId)
  protocol : IslSatelliteCentricMstProtocol
  flags : LinkId → Bool

/-- `UpdateLinks`: fail when not mounted; on a cache hit (cached position
exactly equals the current position) drain the readiness channel and return a
copy of the established set; on a cache miss update the cached position,
rebuild the satellite set, reset visited and the queue, seed the queue with
in-range candidates, run the Prim-style loop, reconcile established flags,
replace the established set with the tree, signal readiness (non-blocking)
and return a copy of the tree. -/
def UpdateLinks (w : World) (p : IslSatelliteCentricMstProtocol)
    (f : LinkId → Bool) : UpdateResult :=
  match p.satellite with
  | none => ⟨Except.error "satellite not mounted", p, f⟩
  | some sat =>
    if p.position = w.nodePos sat then
      ⟨Except.ok p.established, { p with readyCh := false }, f⟩
    else
      let r := recompute w sat p.links
      ⟨Except.ok r.1,
        { p with
          position := w.nodePos sat
          satellites := collectSats w p.links
          established := r.1
          visited := r.2.1
          pq := r.2.2
          readyCh := true },
        reconcileFlags f r.1 p.established⟩

/-- `Links()` returns a copy of the candidate links under the abstract link
interface. -/
def IslSatelliteCentricMstProtocol.Links
    (p : IslSatelliteCentricMstProtocol) : List ILink :=
  p.links.map ILink.isl

/-- `Established()` returns a copy of the established links under the abstract
link interface. -/
def IslSatelliteCentricMstProtocol.Established
    (p : IslSatelliteCentricMstProtocol) : List ILink :=
  p.established.map ILink.isl

/-! ## Properties used in the claim statements -/

/-- Total weight of a list of links: sum of their distances. -/
def treeWeight (w : World) (es : List LinkId) : ℚ :=
  (es.map w.linkDist).sum

/-- The distinct nodes touched by a list of links. -/
def edgeNodes (w : World) (es : List LinkId) : List NodeId :=
  (es.foldl (fun acc l => acc ++ [w.linkNode1 l, w.linkNode2 l]) []).dedup

/-- A list of links is an acyclic multigraph (a forest) exactly when every
nonempty sub-collection of its edges touches strictly more nodes than it has
edges; any multigraph cycle (including a repeated edge) violates this. -/
def IsForestEdges (w : World) (es : List LinkId) : Prop :=
  ∀ sub ∈ es.sublists, sub ≠ [] → sub.length < (edgeNodes w sub).length

instance (w : World) (es : List LinkId) : Decidable (IsForestEdges w es) := by
  unfold IsForestEdges
  infer_instance

/-- Every link in the list has distance within the maximum connection range. -/
def AllInRange (w : World) (ls : List LinkId) : Prop :=
  ∀ l ∈ ls, w.linkDist l ≤ w.maxDist

/-- Every queue entry carries a link whose distance is within the maximum
connection range. -/
def PqInRange (w : World) (pq : List (LinkId × ℚ)) : Prop :=
  ∀ e ∈ pq, w.linkDist e.1 ≤ w.maxDist

/-- The link is a candidate of the protocol itself, or an outgoing link of
some node in the given visited set (pulled from that node's own protocol
during frontier expansion). -/
def FromCandidatesOrVisited (w : World) (cand : List LinkId)
    (visited : List NodeId) (l : LinkId) : Prop :=
  l ∈ cand ∨ ∃ n ∈ visited, l ∈ w.nodeLinks n

/-- Every link in the list is a candidate of the protocol or comes from the
links of a visited node. -/
def AllFromCandidatesOrVisited (w : World) (cand : List LinkId)
    (visited : List NodeId) (ls : List LinkId) : Prop :=
  ∀ l ∈ ls, FromCandidatesOrVisited w cand visited l

/-- The flag function marks every link of the computed tree established and
every previously established link absent from the tree not established. -/
def FlagsReconciled (f : LinkId → Bool) (tree oldEst : List LinkId) : Prop :=
  (∀ l ∈ tree, f l = true) ∧ (∀ l ∈ oldEst, l ∉ tree → f l = false)

/-! ## Concrete scenario from the spec (§8 item 6)

Nodes: A = 0, B = 1, C = 2. Links: A–B is link 0 with distance 10, A–C is
link 1 with distance 50, B–C is link 2 with distance 5; maximum range 100.
Every satellite's own protocol knows its two incident links. All satellites
sit at position (0,0,0); the protocol under test is mounted on A with a
cached position (1,0,0) that differs from A's current position, so
`UpdateLinks` takes the cache-miss path. -/

/-- The triangle world of the spec's example scenario. -/
def w1 : World :=
  { maxDist := 100
    linkNode1 := fun l => if l = 0 then 0 else if l = 1 then 0 else 1
    linkNode2 := fun l => if l = 0 then 1 else 2
    linkDist := fun l => if l = 0 then 10 else if l = 1 then 50 else 5
    nodeLinks := fun n =>
      if n = 0 then [0, 1] else if n = 1 then [0, 2] else
      if n = 2 then [1, 2] else []
    nodePos := fun _ => ⟨0, 0, 0⟩ }

/-- Protocol mounted on A holding all three candidate links, with a stale
cached position. -/
def p1 : IslSatelliteCentricMstProtocol :=
  { links := [0, 1, 2]
    established := []
    satellite := some 0
    satellites := []
    position := ⟨1, 0, 0⟩
    visited := []
    pq := []
    readyCh := false }

/-- All established flags initially false. -/
def f0 : LinkId → Bool := fun _ => false

/-- Same scenario but the protocol only knows the candidate links A–B and
A–C; B–C lives only in the neighbours' own protocols. -/
def p3 : IslSatelliteCentricMstProtocol := { p1 with links := [0, 1] }

/-- Same scenario with link A–B established before the pass. -/
def p8 : IslSatelliteCentricMstProtocol := { p1 with established := [0] }

/-- An unmounted protocol with otherwise nontrivial state. -/
def p7 : IslSatelliteCentricMstProtocol :=
  { p1 with satellite := none, established := [0], visited := [1], pq := [(2, 5)] }

/-! ## Lemmas about the queue and the loop -/

/-- Every entry of the queue after an enqueue was already in the queue or is
the newly inserted pair. -/
theorem mem_pqEnqueue {pq : List (LinkId × ℚ)} {l : LinkId} {d : ℚ}
    {x : LinkId × ℚ} (hx : x ∈ pqEnqueue pq l d) : x ∈ pq ∨ x = (l, d) := by
  induction pq with
  | nil =>
    simp only [pqEnqueue, List.mem_singleton] at hx
    exact Or.inr hx
  | cons e rest ih =>
    simp only [pqEnqueue] at hx
    split at hx
    · rcases List.mem_cons.mp hx with h | h
      · exact Or.inr h
      · exact Or.inl h
    · rcases List.mem_cons.mp hx with h | h
      · exact Or.inl (List.mem_cons.mpr (Or.inl h))
      · rcases ih h with h2 | h2
        · exact Or.inl (List.mem_cons.mpr (Or.inr h2))
        · exact Or.inr h2

/-- Every entry of the seeded queue is a candidate link of the protocol, with
its own distance as priority, and that distance is within range. -/
theorem mem_seedQueue {w : World} {links : List LinkId} {x : LinkId × ℚ}
    (hx : x ∈ seedQueue w links) :
    x.1 ∈ links ∧ x.2 = w.linkDist x.1 ∧ w.linkDist x.1 ≤ w.maxDist := by
  have main : ∀ (ls : List LinkId) (init : List (LinkId × ℚ)),
      x ∈ ls.foldl
        (fun q l => if w.linkDist l ≤ w.maxDist then pqEnqueue q l (w.linkDist l) else q)
        init →
      x ∈ init ∨ (x.1 ∈ ls ∧ x.2 = w.linkDist x.1 ∧ w.linkDist x.1 ≤ w.maxDist) := by
    intro ls
    induction ls with
    | nil => intro init h; exact Or.inl h
    | cons a as ih =>
      intro init h
      rw [List.foldl_cons] at h
      rcases ih _ h with h2 | h2
      · split at h2
        · rcases mem_pqEnqueue h2 with h3 | h3
          · exact Or.inl h3
          · subst h3
            exact Or.inr ⟨List.mem_cons_self a as, rfl, by assumption⟩
        · exact Or.inl h2
      · exact Or.inr ⟨List.mem_cons_of_mem a h2.1, h2.2⟩
  rcases main links [] hx with h | h
  · cases h
  · exact h

/-- Every entry of the queue after frontier expansion was already in the
queue, or is one of the new node's own links, within range, with its distance
as priority. -/
theorem mem_enqueueFrontier {w : World} {visited : List NodeId}
    {ls : List LinkId} {pq : List (LinkId × ℚ)} {x : LinkId × ℚ}
    (hx : x ∈ enqueueFrontier w visited ls pq) :
    x ∈ pq ∨ (x.1 ∈ ls ∧ x.2 = w.linkDist x.1 ∧ w.linkDist x.1 ≤ w.maxDist) := by
  have main : ∀ (l2 : List LinkId) (init : List (LinkId × ℚ)),
      x ∈ enqueueFrontier w visited l2 init →
      x ∈ init ∨ (x.1 ∈ l2 ∧ x.2 = w.linkDist x.1 ∧ w.linkDist x.1 ≤ w.maxDist) := by
    intro l2
    induction l2 with
    | nil => intro init h; exact Or.inl h
    | cons a as ih =>
      intro init h
      unfold enqueueFrontier at h
      rw [List.foldl_cons] at h
      rcases ih _ h with h2 | h2
      · split at h2
        · rcases mem_pqEnqueue h2 with h3 | h3
          · exact Or.inl h3
          · subst h3
            refine Or.inr ⟨List.mem_cons_self a as, rfl, ?_⟩
            rename_i hcond
            exact hcond.1
        · exact Or.inl h2
      · exact Or.inr ⟨List.mem_cons_of_mem a h2.1, h2.2⟩
  exact main ls pq hx

/-- A successful `findLink` returns an entry of the queue, and the remaining
queue is made of entries of the queue. -/
theorem findLink_mem {w : World} {visited : List NodeId} :
    ∀ {pq : List (LinkId × ℚ)} {e : LinkId × ℚ} {rest : List (LinkId × ℚ)},
    findLink w visited pq = some (e, rest) →
    e ∈ pq ∧ ∀ x ∈ rest, x ∈ pq := by
  intro pq
  induction pq with
  | nil => intro e rest h; simp [findLink] at h
  | cons a as ih =>
    intro e rest h
    simp only [findLink] at h
    split at h
    · obtain ⟨h1, h2⟩ := ih h
      exact ⟨List.mem_cons_of_mem a h1, fun x hx => List.mem_cons_of_mem a (h2 x hx)⟩
    · rw [Option.some.injEq, Prod.mk.injEq] at h
      obtain ⟨he, hr⟩ := h
      subst he; subst hr
      exact ⟨List.mem_cons_self a as, fun x hx => List.mem_cons_of_mem a hx⟩

/-- Range invariant of the loop: when every queue entry is within range, every
link of the computed tree and every entry of the final queue is within
range. -/
theorem mstBuild_inRange (w : World) :
    ∀ (budget : Nat) (visited : List NodeId) (pq : List (LinkId × ℚ))
      (mst : List LinkId),
    PqInRange w pq → AllInRange w mst →
    AllInRange w (mstBuild w budget visited pq mst).1 ∧
    PqInRange w (mstBuild w budget visited pq mst).2.2 := by
  intro budget
  induction budget with
  | zero => intro visited pq mst h1 h2; exact ⟨h2, h1⟩
  | succ n ih =>
    intro visited pq mst h1 h2
    simp only [mstBuild]
    cases hf : findLink w visited pq with
    | none =>
      refine ⟨h2, ?_⟩
      intro e he
      cases he
    | some er =>
      obtain ⟨e, rest⟩ := er
      obtain ⟨hmem, hrest⟩ := findLink_mem hf
      apply ih
      · intro x hx
        rcases mem_enqueueFrontier hx with h3 | h3
        · exact h1 x (hrest x h3)
        · exact h3.2.2
      · intro l hl
        rcases List.mem_append.mp hl with h3 | h3
        · exact h2 l h3
        · rw [List.mem_singleton] at h3
          subst h3
          exact h1 e hmem

/-- `FromCandidatesOrVisited` is monotone in the visited set. -/
theorem fromCandidatesOrVisited_mono {w : World} {cand : List LinkId}
    {v1 v2 : List NodeId} (hsub : ∀ n ∈ v1, n ∈ v2) {l : LinkId}
    (h : FromCandidatesOrVisited w cand v1 l) :
    FromCandidatesOrVisited w cand v2 l := by
  rcases h with h | ⟨n, hn, hl⟩
  · exact Or.inl h
  · exact Or.inr ⟨n, hsub n hn, hl⟩

/-- Provenance invariant of the loop: when every queue entry and every tree
link is a candidate of the protocol or a link of a visited node, the visited
set only grows and the final tree keeps that provenance with respect to the
final visited set. -/
theorem mstBuild_provenance (w : World) (cand : List LinkId) :
    ∀ (budget : Nat) (visited : List NodeId) (pq : List (LinkId × ℚ))
      (mst : List LinkId),
    (∀ e ∈ pq, FromCandidatesOrVisited w cand visited e.1) →
    (∀ l ∈ mst, FromCandidatesOrVisited w cand visited l) →
    (∀ n ∈ visited, n ∈ (mstBuild w budget visited pq mst).2.1) ∧
    AllFromCandidatesOrVisited w cand (mstBuild w budget visited pq mst).2.1
      (mstBuild w budget visited pq mst).1 := by
  intro budget
  induction budget with
  | zero => intro visited pq mst h1 h2; exact ⟨fun n hn => hn, h2⟩
  | succ n ih =>
    intro visited pq mst h1 h2
    simp only [mstBuild]
    cases hf : findLink w visited pq with
    | none => exact ⟨fun x hx => hx, h2⟩
    | some er =>
      obtain ⟨e, rest⟩ := er
      obtain ⟨hmem, hrest⟩ := findLink_mem hf
      set newSat := if w.linkNode1 e.1 ∉ visited then w.linkNode1 e.1
        else w.linkNode2 e.1 with hnew
      have hmono : ∀ x ∈ visited, x ∈ visited ++ [newSat] := by
        intro x hx
        exact List.mem_append.mpr (Or.inl hx)
      have hpq2 : ∀ x ∈ enqueueFrontier w visited (w.nodeLinks newSat) rest,
          FromCandidatesOrVisited w cand (visited ++ [newSat]) x.1 := by
        intro x hx
        rcases mem_enqueueFrontier hx with h3 | h3
        · exact fromCandidatesOrVisited_mono hmono (h1 x (hrest x h3))
        · exact Or.inr ⟨newSat,
            List.mem_append.mpr (Or.inr (List.mem_singleton.mpr rfl)), h3.1⟩
      have hmst2 : ∀ l ∈ mst ++ [e.1],
          FromCandidatesOrVisited w cand (visited ++ [newSat]) l := by
        intro l hl
        rcases List.mem_append.mp hl with h3 | h3
        · exact fromCandidatesOrVisited_mono hmono (h2 l h3)
        · rw [List.mem_singleton] at h3
          subst h3
          exact fromCandidatesOrVisited_mono hmono (h1 e hmem)
      obtain ⟨hvis, hout⟩ := ih (visited ++ [newSat]) _ _ hpq2 hmst2
      exact ⟨fun x hx => hvis x (hmono x hx), hout⟩

/-! ## Shape lemmas for `UpdateLinks` -/

/-- Not mounted: `UpdateLinks` fails and returns the protocol and flags
untouched. -/
theorem updateLinks_not_mounted {w : World}
    {p : IslSatelliteCentricMstProtocol} {f : LinkId → Bool}
    (h : p.satellite = none) :
    UpdateLinks w p f = ⟨Except.error "satellite not mounted", p, f⟩ := by
  unfold UpdateLinks
  rw [h]

/-- Cache hit: when the cached position equals the current position of the
mounted satellite, `UpdateLinks` only drains the readiness channel and
returns the established set. -/
theorem updateLinks_hit {w : World} {p : IslSatelliteCentricMstProtocol}
    {f : LinkId → Bool} {sat : NodeId} (h1 : p.satellite = some sat)
    (h2 : p.position = w.nodePos sat) :
    UpdateLinks w p f =
      ⟨Except.ok p.established, { p with readyCh := false }, f⟩ := by
  simp only [UpdateLinks, h1]
  rw [if_pos h2]

/-- Cache miss: `UpdateLinks` recomputes via `recompute`, stores the new
position, satellite cache, tree, visited set and queue, reconciles flags and
signals readiness. -/
theorem updateLinks_miss {w : World} {p : IslSatelliteCentricMstProtocol}
    {f : LinkId → Bool} {sat : NodeId} (h1 : p.satellite = some sat)
    (h2 : p.position ≠ w.nodePos sat) :
    UpdateLinks w p f =
      ⟨Except.ok (recompute w sat p.links).1,
        { p with
          position := w.nodePos sat
          satellites := collectSats w p.links
          established := (recompute w sat p.links).1
          visited := (recompute w sat p.links).2.1
          pq := (recompute w sat p.links).2.2
          readyCh := true },
        reconcileFlags f (recompute w sat p.links).1 p.established⟩ := by
  simp only [UpdateLinks, h1]
  rw [if_neg h2]

/-- After any successful `UpdateLinks` the protocol stays mounted on the same
satellite, its cached position equals the satellite's current position, and
the returned list is the protocol's established set. -/
theorem updateLinks_post {w : World} {p : IslSatelliteCentricMstProtocol}
    {f : LinkId → Bool} {sat : NodeId} (h1 : p.satellite = some sat) :
    (UpdateLinks w p f).protocol.satellite = some sat ∧
    (UpdateLinks w p f).protocol.position = w.nodePos sat ∧
    (UpdateLinks w p f).result =
      Except.ok (UpdateLinks w p f).protocol.established := by
  by_cases h2 : p.position = w.nodePos sat
  · rw [updateLinks_hit h1 h2]
    exact ⟨h1, h2, rfl⟩
  · rw [updateLinks_miss h1 h2]
    exact ⟨h1, rfl, rfl⟩

/-- Reconciliation marks every tree link established and every stale
previously established link not established. -/
theorem reconcileFlags_spec (f : LinkId → Bool) (tree oldEst : List LinkId) :
    FlagsReconciled (reconcileFlags f tree oldEst) tree oldEst := by
  constructor
  · intro l hl
    unfold reconcileFlags
    rw [if_pos hl]
  · intro l hl hnl
    unfold reconcileFlags
    rw [if_neg hnl, if_pos hl]

/-! ## Claim theorems -/

/-- Claim C1: on the spec's example scenario (links A–B = 10, A–C = 50,
B–C = 5, max range 100, cache miss), `UpdateLinks` is claimed to return the
tree {A–B, B–C} of weight 15. The code instead returns the link B–C twice
(links are ids 0 = A–B, 1 = A–C, 2 = B–C): the returned list is [2, 2], link
A–B (0) is not in the established set, and the total weight is 10. The code
seeds the queue with every candidate link — its own comment says links from
the local satellite — and accepts a dequeued link both of whose endpoints are
unvisited, so B–C enters the tree first and then enters it again when C is
reached through it. -/
theorem c1_example_scenario_code_result :
    (UpdateLinks w1 p1 f0).result = Except.ok [2, 2] ∧
    (0 : LinkId) ∉ (UpdateLinks w1 p1 f0).protocol.established ∧
    treeWeight w1 (UpdateLinks w1 p1 f0).protocol.established = 10 ∧
    treeWeight w1 [0, 2] = 15 := by
  have h : (UpdateLinks w1 p1 f0).protocol.established = [2, 2] := rfl
  refine ⟨rfl, by decide, ?_, ?_⟩
  · rw [h]
    norm_num [treeWeight, w1]
  · norm_num [treeWeight, w1]

/-- Claim C2: after the cache-miss recomputation on the spec's triangle
scenario — whose within-range candidate graph is connected — the established
set is claimed to be acyclic with (reached-node count − 1) edges. The code
computes the established list [2, 2]: the link B–C twice, which as a
multigraph is a cycle (it fails the forest bound on the sub-collection made of
the two copies), and which as a set of edges has 1 distinct edge although 3
nodes were reached. -/
theorem c2_recomputation_not_acyclic :
    (UpdateLinks w1 p1 f0).protocol.established = [2, 2] ∧
    ¬ IsForestEdges w1 (UpdateLinks w1 p1 f0).protocol.established ∧
    ((UpdateLinks w1 p1 f0).protocol.established).dedup.length ≠
      ((UpdateLinks w1 p1 f0).protocol.visited).length - 1 := by
  refine ⟨rfl, by decide, by decide⟩

/-- Claim C3, counterexample: with candidate links A–B and A–C only, while
B's own protocol also knows B–C, the recomputation pulls B–C (link 2) from B
during frontier expansion and establishes it, although it was never passed to
`AddLink` on this instance: the established set is not a subset of the
candidate list. -/
theorem c3_established_not_subset_candidates :
    2 ∈ (UpdateLinks w1 p3 f0).protocol.established ∧ 2 ∉ p3.links := by
  decide

/-- Claim C3, amended: immediately after any cache-miss recomputation, every
link in the established set is either one of the protocol's own candidate
links or an outgoing link, per that node's own protocol, of a node visited
during the recomputation. -/
theorem c3_established_from_candidates_or_visited (w : World)
    (p : IslSatelliteCentricMstProtocol) (f : LinkId → Bool) (sat : NodeId)
    (h1 : p.satellite = some sat) (h2 : p.position ≠ w.nodePos sat) :
    AllFromCandidatesOrVisited w p.links (UpdateLinks w p f).protocol.visited
      (UpdateLinks w p f).protocol.established := by
  rw [updateLinks_miss h1 h2]
  show AllFromCandidatesOrVisited w p.links (recompute w sat p.links).2.1
    (recompute w sat p.links).1
  unfold recompute
  refine (mstBuild_provenance w p.links ((collectSats w p.links).length - 1)
    [sat] (seedQueue w p.links) [] ?_ ?_).2
  · intro e he
    exact Or.inl (mem_seedQueue he).1
  · intro l hl
    cases hl

/-- Witness for the amended claim C3, at the concrete scenario of the
counterexample. -/
theorem c3_established_from_candidates_or_visited_witness :
    AllFromCandidatesOrVisited w1 p3.links
      (UpdateLinks w1 p3 f0).protocol.visited
      (UpdateLinks w1 p3 f0).protocol.established :=
  c3_established_from_candidates_or_visited w1 p3 f0 0 rfl (by decide)

/-- Claim C4: on any cache-miss recomputation, a candidate link whose distance
exceeds the maximum connection distance is never enqueued (every entry of the
final queue is within range — the seeding filter and the frontier filter admit
only in-range links, which the invariant `mstBuild_inRange` propagates), and
the returned established set contains only in-range links. -/
theorem c4_distance_filter (w : World) (p : IslSatelliteCentricMstProtocol)
    (f : LinkId → Bool) (sat : NodeId) (h1 : p.satellite = some sat)
    (h2 : p.position ≠ w.nodePos sat) :
    AllInRange w (UpdateLinks w p f).protocol.established ∧
    PqInRange w (UpdateLinks w p f).protocol.pq ∧
    (UpdateLinks w p f).result =
      Except.ok (UpdateLinks w p f).protocol.established := by
  rw [updateLinks_miss h1 h2]
  have h := mstBuild_inRange w ((collectSats w p.links).length - 1) [sat]
    (seedQueue w p.links) []
    (fun e he => (mem_seedQueue he).2.2) (fun l hl => absurd hl (by simp))
  exact ⟨h.1, h.2, rfl⟩

/-- Witness for claim C4 at the triangle scenario. -/
theorem c4_distance_filter_witness :
    AllInRange w1 (UpdateLinks w1 p1 f0).protocol.established ∧
    PqInRange w1 (UpdateLinks w1 p1 f0).protocol.pq ∧
    (UpdateLinks w1 p1 f0).result =
      Except.ok (UpdateLinks w1 p1 f0).protocol.established :=
  c4_distance_filter w1 p1 f0 0 rfl (by decide)

/-- Claim C5: on a mounted protocol, calling `UpdateLinks` twice with the
same node positions returns the same list both times, and the second call is
a pure cache hit: established set, visited set, priority queue, cached
position and established flags are all left unchanged. -/
theorem c5_idempotent_cache_hit (w : World)
    (p : IslSatelliteCentricMstProtocol) (f : LinkId → Bool) (sat : NodeId)
    (h1 : p.satellite = some sat) :
    (UpdateLinks w (UpdateLinks w p f).protocol (UpdateLinks w p f).flags).result
      = (UpdateLinks w p f).result ∧
    (UpdateLinks w (UpdateLinks w p f).protocol (UpdateLinks w p f).flags).protocol.established
      = (UpdateLinks w p f).protocol.established ∧
    (UpdateLinks w (UpdateLinks w p f).protocol (UpdateLinks w p f).flags).protocol.visited
      = (UpdateLinks w p f).protocol.visited ∧
    (UpdateLinks w (UpdateLinks w p f).protocol (UpdateLinks w p f).flags).protocol.pq
      = (UpdateLinks w p f).protocol.pq ∧
    (UpdateLinks w (UpdateLinks w p f).protocol (UpdateLinks w p f).flags).protocol.position
      = (UpdateLinks w p f).protocol.position ∧
    (UpdateLinks w (UpdateLinks w p f).protocol (UpdateLinks w p f).flags).flags
      = (UpdateLinks w p f).flags := by
  obtain ⟨hs, hp, hr⟩ := updateLinks_post (w := w) (f := f) h1
  rw [updateLinks_hit hs hp]
  exact ⟨hr.symm, rfl, rfl, rfl, rfl, rfl⟩

/-- Witness for claim C5 at the triangle scenario: the first call recomputes,
the second is a cache hit. -/
theorem c5_idempotent_cache_hit_witness :
    (UpdateLinks w1 (UpdateLinks w1 p1 f0).protocol (UpdateLinks w1 p1 f0).flags).result
      = (UpdateLinks w1 p1 f0).result ∧
    (UpdateLinks w1 (UpdateLinks w1 p1 f0).protocol (UpdateLinks w1 p1 f0).flags).protocol.established
      = (UpdateLinks w1 p1 f0).protocol.established ∧
    (UpdateLinks w1 (UpdateLinks w1 p1 f0).protocol (UpdateLinks w1 p1 f0).flags).protocol.visited
      = (UpdateLinks w1 p1 f0).protocol.visited ∧
    (UpdateLinks w1 (UpdateLinks w1 p1 f0).protocol (UpdateLinks w1 p1 f0).flags).protocol.pq
      = (UpdateLinks w1 p1 f0).protocol.pq ∧
    (UpdateLinks w1 (UpdateLinks w1 p1 f0).protocol (UpdateLinks w1 p1 f0).flags).protocol.position
      = (UpdateLinks w1 p1 f0).protocol.position ∧
    (UpdateLinks w1 (UpdateLinks w1 p1 f0).protocol (UpdateLinks w1 p1 f0).flags).flags
      = (UpdateLinks w1 p1 f0).flags :=
  c5_idempotent_cache_hit w1 p1 f0 0 rfl

/-- Claim C6: `ConnectLink(L)` followed by `DisconnectLink(L)` with no
intervening operation leaves the established set a permutation of — hence
equal as a set to — its pre-connect state, for links of the protocol's own
type and for foreign links alike. -/
theorem c6_connect_disconnect_roundtrip (p : IslSatelliteCentricMstProtocol)
    (L : ILink) :
    List.Perm (((p.ConnectLink L).1.DisconnectLink L).1.established)
      p.established ∧
    ∀ x, x ∈ ((p.ConnectLink L).1.DisconnectLink L).1.established ↔
      x ∈ p.established := by
  cases L with
  | other t => exact ⟨List.Perm.refl _, fun x => Iff.rfl⟩
  | isl l =>
    have hper : List.Perm ((p.established ++ [l]).erase l) p.established := by
      by_cases hl : l ∈ p.established
      · rw [List.erase_append_left [l] hl]
        exact (List.perm_append_singleton l _).trans
          (List.perm_cons_erase hl).symm
      · rw [List.erase_append_right [l] hl, List.erase_cons_head l [],
          List.append_nil]
    exact ⟨hper, fun x => hper.mem_iff⟩

/-- Claim C7: `UpdateLinks` on a protocol that has never been mounted fails
with the "satellite not mounted" error and returns the protocol state and the
established flags untouched. -/
theorem c7_not_mounted_error (w : World) (p : IslSatelliteCentricMstProtocol)
    (f : LinkId → Bool) (h : p.satellite = none) :
    UpdateLinks w p f = ⟨Except.error "satellite not mounted", p, f⟩ :=
  updateLinks_not_mounted h

/-- Witness for claim C7 on an unmounted protocol with nontrivial state. -/
theorem c7_not_mounted_error_witness :
    UpdateLinks w1 p7 f0 = ⟨Except.error "satellite not mounted", p7, f0⟩ :=
  c7_not_mounted_error w1 p7 f0 rfl

/-- Claim C8: after any cache-miss recomputation, every link of the computed
tree has its established flag true and every previously established link
absent from the tree has its established flag false. -/
theorem c8_reconcile_flags (w : World) (p : IslSatelliteCentricMstProtocol)
    (f : LinkId → Bool) (sat : NodeId) (h1 : p.satellite = some sat)
    (h2 : p.position ≠ w.nodePos sat) :
    FlagsReconciled (UpdateLinks w p f).flags
      (UpdateLinks w p f).protocol.established p.established := by
  rw [updateLinks_miss h1 h2]
  exact reconcileFlags_spec f _ p.established

/-- Witness for claim C8: in the triangle scenario with A–B established
before the pass, the new tree [2, 2] gets flag true and the dropped A–B gets
flag false. -/
theorem c8_reconcile_flags_witness :
    FlagsReconciled (UpdateLinks w1 p8 f0).flags
      (UpdateLinks w1 p8 f0).protocol.established p8.established :=
  c8_reconcile_flags w1 p8 f0 0 rfl (by decide)

/-- Claim C9: `DisconnectLink` on a link of a foreign concrete type returns a
nil error and leaves the whole protocol state unchanged, mirroring the silent
type-mismatch no-op of `AddLink`, `ConnectLink` and `Mount`. -/
theorem c9_disconnect_foreign_noop (p : IslSatelliteCentricMstProtocol)
    (t : Nat) :
    p.DisconnectLink (ILink.other t) = (p, none) :=
  rfl

/-- Claim C10: `ConnectSatellite` and `DisconnectSatellite` always return a
non-nil "not implemented" error and leave the protocol state unchanged. -/
theorem c10_satellite_ops_not_implemented
    (p : IslSatelliteCentricMstProtocol) (node : INode) :
    p.ConnectSatellite node = (p, some "ConnectSatellite not implemented") ∧
    p.DisconnectSatellite node =
      (p, some "DisconnectSatellite not implemented") :=
  ⟨rfl, rfl⟩

end StardustGo
